import Mathlib

/-!
# The `dnskey` input plugin (`plugins/inputs/dnskey/dnskey.go`)

A shallow embedding of the plugin: the configuration struct `Dnskey`, the
defaulting step `setDefaultValues` (with the regular expression it uses to
recognise resolver entries that already carry a port), the two decoders
`algorithmName` and `keyType`, the query builder `getDnskey` and the
collection pass `Gather`.

Conventions of the embedding.

* Go strings are Lean `String`s.  The regular expression of the plugin only
  tests ASCII characters and the newline, so matching over characters and
  matching over UTF-8 bytes agree.
* The mutable receiver `d *Dnskey` is passed explicitly: a method returns the
  receiver as it is left after the call.
* Everything outside the package (the resolver file, `math/rand`, the DNS
  client, the table `dns.AlgorithmToString`) is a field of `World`; the
  state of the outside world has an arbitrary type `σ` and is threaded
  through the calls in program order.
* The accumulator and the network are observed through a trace of `Event`s,
  in program order.
-/

namespace dnskey

/-! ## Regular expressions (the fragment of Go `regexp` syntax the plugin uses) -/

/-- Abstract syntax of the regular expressions that occur in the plugin.
Capture groups do not matter for `MatchString` and are not represented. -/
inductive Regexp where
  /-- a literal character, such as an escaped dot or bracket -/
  | lit (c : Char)
  /-- the class of ASCII digits, written backslash-d -/
  | digit
  /-- the dot: any character except the newline -/
  | any
  /-- the caret: beginning of the text -/
  | bot
  /-- the dollar: end of the text -/
  | eot
  /-- concatenation -/
  | cat (a b : Regexp)
  /-- alternation, the operator of lowest precedence -/
  | alt (a b : Regexp)
  /-- zero or more repetitions -/
  | star (a : Regexp)
  /-- one or more repetitions -/
  | plus (a : Regexp)
  /-- exactly `n` repetitions -/
  | rep (a : Regexp) (n : Nat)

/-- All positions reached from `i` by repeating a step `f` any number of times
(each repetition that makes progress consumes a character, so `fuel` equal to
the length of the text is enough). -/
def iterate (f : Nat → List Nat) : Nat → Nat → List Nat
  | 0, i => [i]
  | fuel + 1, i => i :: ((f i).filter (fun j => i < j)).flatMap (iterate f fuel)

/-- All positions reached from `i` by exactly `n` steps of `f`. -/
def power (f : Nat → List Nat) : Nat → Nat → List Nat
  | 0, i => [i]
  | n + 1, i => (f i).flatMap (power f n)

/-- The end positions of the matches of `re` in `text` that begin at position `i`. -/
def Regexp.ends (text : List Char) : Regexp → Nat → List Nat
  | .lit c, i => if text.get? i = some c then [i + 1] else []
  | .digit, i =>
    match text.get? i with
    | some c => if '0' ≤ c ∧ c ≤ '9' then [i + 1] else []
    | none => []
  | .any, i =>
    match text.get? i with
    | some c => if c ≠ '\n' then [i + 1] else []
    | none => []
  | .bot, i => if i = 0 then [i] else []
  | .eot, i => if i = text.length then [i] else []
  | .cat a b, i => (a.ends text i).flatMap (fun j => b.ends text j)
  | .alt a b, i => a.ends text i ++ b.ends text i
  | .star a, i => iterate (fun j => a.ends text j) text.length i
  | .plus a, i => (a.ends text i).flatMap (iterate (fun j => a.ends text j) text.length)
  | .rep a n, i => power (fun j => a.ends text j) n i

/-- The method `MatchString`: the text contains some match of the expression
(the search is not anchored unless the expression anchors it). -/
def Regexp.MatchString (re : Regexp) (s : String) : Bool :=
  (List.range (s.toList.length + 1)).any (fun i => !(re.ends s.toList i).isEmpty)

/-- One or more digits. -/
def digits : Regexp := .plus .digit

/-- The first alternative of the plugin's pattern, without its anchor:
an IPv4 literal with a port, digits.digits.digits.digits:digits. -/
def ipv4Port : Regexp :=
  .cat digits (.cat (.rep (.cat (.lit '.') digits) 3) (.cat (.lit ':') digits))

/-- The second alternative of the plugin's pattern, without its anchor:
anything in square brackets with a port. -/
def bracketPort : Regexp :=
  .cat (.lit '[') (.cat (.star .any) (.cat (.lit ']') (.cat (.lit ':') digits)))

/-- The pattern compiled in `setDefaultValues`, parsed as Go parses it:
alternation binds weakest, so the caret belongs to the first alternative only
and the dollar to the second only. -/
def resolverPattern : Regexp :=
  .alt (.cat .bot ipv4Port) (.cat bracketPort .eot)

/-- The form the specification describes: the WHOLE entry is an IPv4 literal
with a port, or a bracketed literal with a port (both anchors apply to both
alternatives).  This definition follows the specification, not the code.  Its
bracketed alternative accepts any bracket content, so an entry it rejects is
not of the described form however strictly one reads "IPv6 literal". -/
def wholeEntryPattern : Regexp :=
  .cat .bot (.cat (.alt ipv4Port bracketPort) .eot)

/-! ## Library functions used by the plugin -/

/-- Decimal rendering of an unsigned number, as the verb percent-d of `fmt` prints it. -/
def decimal (n : Nat) : String := Nat.repr n

/-- Decimal rendering of a signed number, as the verb percent-d of `fmt` prints it. -/
def decimalInt : Int → String
  | .ofNat n => decimal n
  | .negSucc n => "-" ++ decimal (n + 1)

/-- The function `net.JoinHostPort`: a host that contains a colon is put in
square brackets (older releases of the library also bracket a host that
contains a percent sign; no entry used below has one). -/
def JoinHostPort (host port : String) : String :=
  if host.toList.contains ':' then "[" ++ host ++ "]:" ++ port
  else host ++ ":" ++ port

/-- The constant `dns.TypeDNSKEY`. -/
def TypeDNSKEY : Nat := 48

/-- The constant `dns.RcodeSuccess`. -/
def RcodeSuccess : Int := 0

/-- The constant `time.Second`, in nanoseconds. -/
def Second : Int := 1000000000

/-- Wrap-around of a product computed in the 64-bit signed type `time.Duration`. -/
def wrap64 (x : Int) : Int := (x + 2 ^ 63) % 2 ^ 64 - 2 ^ 63

/-! ## Data model -/

/-- The plugin's configuration struct.  `Timeout` has Go type `int`. -/
structure Dnskey where
  Domains : List String
  Resolvers : List String
  Timeout : Int
  deriving DecidableEq, Repr

/-- The fields of a `*dns.DNSKEY` that the plugin reads; `KeyTag` is the value
of the library method `KeyTag()`. -/
structure DNSKEY where
  Flags : Nat
  Algorithm : Nat
  KeyTag : Nat
  deriving DecidableEq, Repr

/-- An answer record (`dns.RR`).  The DNS library decodes a record whose header
type is `TypeDNSKEY` as a `*dns.DNSKEY` and no other, which is what the type
assertions in `Gather` rely on. -/
inductive RR where
  | DNSKEY (k : DNSKEY)
  | other (Rrtype : Nat) (h : Rrtype ≠ TypeDNSKEY)
  deriving DecidableEq

/-- The header's record type, `rr.Header().Rrtype`. -/
def RR.Rrtype : RR → Nat
  | .DNSKEY _ => TypeDNSKEY
  | .other t _ => t

/-- The fields of a `dns.Msg` that the plugin reads. -/
structure Msg where
  Rcode : Int
  Answer : List RR
  deriving DecidableEq

/-- The `dns.Client` built by `getDnskey`; `ReadTimeout` is a `time.Duration` in nanoseconds. -/
structure Client where
  ReadTimeout : Int
  deriving DecidableEq, Repr

/-- The query message built by `getDnskey`: `SetEdns0(UDPSize, DO)` and
`SetQuestion(dns.Fqdn(Name), Qtype)`. -/
structure Question where
  Name : String
  Qtype : Nat
  UDPSize : Nat
  DO : Bool
  deriving DecidableEq, Repr

/-- What `Client.Exchange` returns: an error, or a response with its round-trip
time (a `time.Duration` in nanoseconds). -/
inductive ExchangeResult where
  /-- a nil error: the response and the round-trip time -/
  | ok (r : Msg) (rtt : Int)
  /-- a non-nil error -/
  | error (err : String)
  deriving DecidableEq

/-- The dynamic value stored in a field map (`map[string]interface{}`). -/
inductive FieldValue where
  /-- a `time.Duration`: a 64-bit integer count of nanoseconds -/
  | Duration (ns : Int)
  /-- a `float64`, by its bit pattern -/
  | Float64 (bits : Nat)
  deriving DecidableEq, Repr

/-- The comma-ok type assertion to `float64` used by the tests:
the zero value (bit pattern 0) and `false` when the value has another type. -/
def FieldValue.asFloat64 : FieldValue → Nat × Bool
  | .Float64 b => (b, true)
  | .Duration _ => (0, false)

/-- What a pass does to the outside, in program order. -/
inductive Event where
  /-- a call of `Client.Exchange` for `domain` at `server`, with the client's
  read timeout, together with what the call returned -/
  | Exchange (domain server : String) (ReadTimeout : Int) (result : ExchangeResult)
  /-- a call of `acc.AddError` -/
  | AddError (err : String)
  /-- a call of `acc.AddFields` -/
  | AddFields (measurement : String) (fields : List (String × FieldValue))
      (tags : List (String × String))
  deriving DecidableEq

/-- Everything the plugin consumes from outside the package. -/
structure World (σ : Type) where
  /-- the servers of `dns.ClientConfigFromFile` on the system resolver file, or `none` when it fails -/
  ClientConfigFromFile : σ → Option (List String)
  /-- the table `dns.AlgorithmToString` -/
  AlgorithmToString : Nat → Option String
  /-- the draw behind `rand.Intn`; `rand.Intn n` is the draw reduced modulo `n` -/
  Intn : σ → Nat → Nat × σ
  /-- the method `Client.Exchange` -/
  Exchange : σ → Client → Question → String → ExchangeResult × σ

/-! ## The plugin -/

/-- The loop of `setDefaultValues` that puts resolvers in name:port format. -/
def reformatResolvers : List String → List String
  | [] => []
  | r :: rest =>
    (if !resolverPattern.MatchString r then JoinHostPort r "53" else r) :: reformatResolvers rest

/-- The method `setDefaultValues`.  `resolvConf` is what reading the system
resolver file gives (it is read only when no resolver is configured).  The
result is the receiver after the call and the returned error. -/
def setDefaultValues (resolvConf : Option (List String)) (d : Dnskey) : Dnskey × Option String :=
  let d1 : Dnskey := if d.Domains.length = 0 then { d with Domains := ["."] } else d
  -- get system resolvers
  let r : Except String Dnskey :=
    if d1.Resolvers.length = 0 then
      match resolvConf with
      | none => .error "Could not read /etc/resolv.conf"
      | some servers => .ok { d1 with Resolvers := servers }
    else .ok d1
  match r with
  | .error err => (d1, some err)
  | .ok d2 =>
    -- reformat resolvers in name:port format
    let d3 : Dnskey := { d2 with Resolvers := reformatResolvers d2.Resolvers }
    -- default timeout 2 seconds
    let d4 : Dnskey := if d3.Timeout = 0 then { d3 with Timeout := 2 } else d3
    (d4, none)

/-- The function `algorithmName`, over the table `dns.AlgorithmToString`. -/
def algorithmName (AlgorithmToString : Nat → Option String) (alg : Nat) : String :=
  match AlgorithmToString alg with
  | some str => str
  | none => decimal alg

/-- The function `keyType`. -/
def keyType (flags : Nat) : String :=
  if flags = 256 then "ZSK"
  else if flags = 257 then "KSK"
  else decimal flags

/-- The method `getResolver`. -/
def getResolver {σ : Type} (w : World σ) (s : σ) (d : Dnskey) : String × σ :=
  if d.Resolvers.length = 0 then ("", s)
  else
    let (r, s1) := w.Intn s d.Resolvers.length
    (d.Resolvers.getD (r % d.Resolvers.length) "", s1)

/-- The client that `getDnskey` builds. -/
def queryClient (d : Dnskey) : Client :=
  { ReadTimeout := wrap64 (d.Timeout * Second) }

/-- The message that `getDnskey` builds. -/
def queryMsg (domain : String) : Question :=
  { Name := domain, Qtype := TypeDNSKEY, UDPSize := 4096, DO := true }

/-- The method `getDnskey`. -/
def getDnskey {σ : Type} (w : World σ) (s : σ) (d : Dnskey) (domain server : String) :
    ExchangeResult × σ :=
  w.Exchange s (queryClient d) (queryMsg domain) server

/-- The call of `acc.AddFields` in `Gather` for one key record. -/
def keyMeasurement (tbl : Nat → Option String) (domain server : String) (dnsQueryTime : Int)
    (k : DNSKEY) : Event :=
  .AddFields "dnskey"
    [("query_time_ms", .Duration dnsQueryTime)]
    [("domain", domain), ("server", server), ("keytag", decimal k.KeyTag),
     ("algorithm", algorithmName tbl k.Algorithm), ("key_type", keyType k.Flags)]

/-- The inner loop of `Gather`, over the answer records of one response. -/
def gatherAnswers (tbl : Nat → Option String) (domain server : String) (dnsQueryTime : Int) :
    List RR → List Event
  | [] => []
  | rr :: rest =>
    if hne : rr.Rrtype ≠ TypeDNSKEY then
      gatherAnswers tbl domain server dnsQueryTime rest
    else
      match rr, hne with
      | .DNSKEY k, _ =>
        keyMeasurement tbl domain server dnsQueryTime k ::
          gatherAnswers tbl domain server dnsQueryTime rest
      | .other _ h, hne => absurd h hne

/-- The error `Gather` reports for a response whose code is not success. -/
def rcodeError (rcode : Int) (server domain : String) : String :=
  "Query failed! Rcode " ++ decimalInt rcode ++ "  Querying: " ++ server ++ " for " ++ domain

/-- The outer loop of `Gather`, over the configured domains: the trace of the
loop and the state of the outside world after it. -/
def gatherDomains {σ : Type} (w : World σ) (d : Dnskey) : List String → σ → List Event × σ
  | [], s => ([], s)
  | domain :: rest, s =>
    let (server, s1) := getResolver w s d
    let (res, s2) := getDnskey w s1 d domain server
    let ev := Event.Exchange domain server (queryClient d).ReadTimeout res
    match res with
    | .error err => ([ev, .AddError err], s2)
    | .ok dnsMsg dnsQueryTime =>
      if dnsMsg.Rcode ≠ RcodeSuccess then
        ([ev, .AddError (rcodeError dnsMsg.Rcode server domain)], s2)
      else
        let (tr, s3) := gatherDomains w d rest s2
        (ev :: (gatherAnswers w.AlgorithmToString domain server dnsQueryTime dnsMsg.Answer ++ tr), s3)

/-- The outcome of one pass. -/
structure Pass (σ : Type) where
  /-- the receiver after the pass -/
  config : Dnskey
  /-- what the pass did, in program order -/
  trace : List Event
  /-- the outside world after the pass -/
  state : σ

/-- The method `Gather` (its returned error is always nil). -/
def Gather {σ : Type} (w : World σ) (s : σ) (d : Dnskey) : Pass σ :=
  match setDefaultValues (w.ClientConfigFromFile s) d with
  | (d1, some err) => { config := d1, trace := [.AddError err], state := s }
  | (d1, none) =>
    let (tr, s1) := gatherDomains w d1 d1.Domains s
    { config := d1, trace := tr, state := s1 }


/-! ## Concrete inputs used in examples -/

/-- Modelled from the spec: the table `dns.AlgorithmToString` belongs to the DNS
library and is not in the repository; these are the entries the specification
names (1, 2, 5 and 8), every other number being taken as absent. -/
def specAlgorithmToString : Nat → Option String
  | 1 => some "RSAMD5"
  | 2 => some "DH"
  | 5 => some "RSASHA1"
  | 8 => some "RSASHA256"
  | _ => none

/-- The key record of the end-to-end scenario: algorithm 8, flags 257, tag 12345. -/
def rootKey : DNSKEY := { Flags := 257, Algorithm := 8, KeyTag := 12345 }

/-- A response with the key record of the scenario followed by a record of
another type (46, a signature). -/
def rootAnswer : Msg := { Rcode := 0, Answer := [.DNSKEY rootKey, .other 46 (by decide)] }

/-- A server whose behaviour depends on the question only: the root domain is
answered with `rootAnswer` after 1.5 ms, the name "fail.example" with response
code 2, the name "down.example" with a transport error, and any other name
with an empty answer.  The state counts the exchanges. -/
def scenarioExchange (n : Nat) (_c : Client) (q : Question) (_server : String) :
    ExchangeResult × Nat :=
  if q.Name = "." then (.ok rootAnswer 1500000, n + 1)
  else if q.Name = "fail.example" then (.ok { Rcode := 2, Answer := [] } 900000, n + 1)
  else if q.Name = "down.example" then (.error "i/o timeout", n + 1)
  else (.ok { Rcode := 0, Answer := [] } 700000, n + 1)

/-- An outside world for the scenarios: the resolver file lists one server,
the random source always draws 0. -/
def scenario : World Nat :=
  { ClientConfigFromFile := fun _ => some ["192.0.2.1"]
    AlgorithmToString := specAlgorithmToString
    Intn := fun n _ => (0, n)
    Exchange := scenarioExchange }

/-! ## Predicates on traces -/

/-- The event is a reported error. -/
def Event.isAddError : Event → Bool
  | .AddError _ => true
  | _ => false

/-- The event is an emitted measurement. -/
def Event.isAddFields : Event → Bool
  | .AddFields _ _ _ => true
  | _ => false

/-- The event is an exchange that fails: it returned an error, or a response
whose code is not success. -/
def Event.failed : Event → Bool
  | .Exchange _ _ _ (.error _) => true
  | .Exchange _ _ _ (.ok r _) => decide (r.Rcode ≠ RcodeSuccess)
  | _ => false

/-- The domain an exchange asks about. -/
def Event.queried : Event → Option String
  | .Exchange domain _ _ _ => some domain
  | _ => none

/-- The measurements the specification asks for after an event: for an
exchange that returned a response with code success, one measurement per
answer record that is a key record, in answer order, and none otherwise. -/
def Event.expected (tbl : Nat → Option String) : Event → List Event
  | .Exchange domain server _ (.ok r rtt) =>
    if r.Rcode = RcodeSuccess then
      r.Answer.filterMap (fun rr =>
        match rr with
        | .DNSKEY k =>
          some (.AddFields "dnskey" [("query_time_ms", .Duration rtt)]
            [("domain", domain), ("server", server), ("keytag", decimal k.KeyTag),
             ("algorithm", algorithmName tbl k.Algorithm), ("key_type", keyType k.Flags)])
        | .other _ _ => none)
    else []
  | _ => []

/-! ## Decimal strings -/

theorem toDigitsCore_isDigit (fuel : Nat) : ∀ (n : Nat) (acc : List Char),
    (∀ c ∈ acc, c.isDigit = true) → ∀ c ∈ Nat.toDigitsCore 10 fuel n acc, c.isDigit = true := by
  induction fuel with
  | zero => intro n acc h; simpa [Nat.toDigitsCore] using h
  | succ k ih =>
    intro n acc h
    have hd : (Nat.digitChar (n % 10)).isDigit = true := by
      have : n % 10 < 10 := Nat.mod_lt _ (by decide)
      interval_cases (n % 10) <;> decide
    have hacc : ∀ c ∈ Nat.digitChar (n % 10) :: acc, c.isDigit = true := by
      intro c hc
      rcases List.mem_cons.mp hc with rfl | hc
      · exact hd
      · exact h c hc
    simp only [Nat.toDigitsCore]
    split
    · exact hacc
    · exact ih _ _ hacc

/-- A decimal string consists of digits only. -/
theorem decimal_isDigit (n : Nat) : ∀ c ∈ (decimal n).toList, c.isDigit = true := by
  intro c hc
  exact toDigitsCore_isDigit _ _ [] (by simp) c
    (by simpa [decimal, Nat.repr, Nat.toDigits, List.asString] using hc)

theorem decimal_ne_ZSK (n : Nat) : decimal n ≠ "ZSK" := by
  intro h
  have := decimal_isDigit n 'Z' (by rw [h]; decide)
  exact absurd this (by decide)

theorem decimal_ne_KSK (n : Nat) : decimal n ≠ "KSK" := by
  intro h
  have := decimal_isDigit n 'K' (by rw [h]; decide)
  exact absurd this (by decide)

/-! ## The decoders -/

/-- C7: `keyType` is total on the flags field: 256 gives "ZSK", 257 gives "KSK"
and every other value gives its decimal string; the result is "ZSK" only for
256 and "KSK" only for 257; 0 gives "0" and 327 gives "327". -/
theorem keyType_decodes (f : Nat) :
    keyType f = (if f = 256 then "ZSK" else if f = 257 then "KSK" else decimal f)
    ∧ (keyType f = "ZSK" ↔ f = 256)
    ∧ (keyType f = "KSK" ↔ f = 257)
    ∧ keyType 256 = "ZSK" ∧ keyType 257 = "KSK" ∧ keyType 0 = "0" ∧ keyType 327 = "327" := by
  refine ⟨rfl, ?_, ?_, by decide, by decide, by decide, by decide⟩
  · unfold keyType
    constructor
    · intro h
      by_contra hne
      rw [if_neg hne] at h
      split at h
      · exact absurd h (by decide)
      · exact decimal_ne_ZSK f h
    · intro h; rw [if_pos h]
  · unfold keyType
    constructor
    · intro h
      split at h
      · exact absurd h (by decide)
      · split at h
        · assumption
        · exact absurd h (decimal_ne_KSK f)
    · intro h; subst h; decide

/-- C8: `algorithmName` is total on the algorithm number: it is the name the
table `dns.AlgorithmToString` gives when the number is in the table and the
decimal string of the number otherwise; with the entries the specification
names, 1 gives "RSAMD5", 2 gives "DH", 5 gives "RSASHA1", 8 gives "RSASHA256",
242 gives "242" and 255 gives "255". -/
theorem algorithmName_decodes (tbl : Nat → Option String) (a : Nat) :
    algorithmName tbl a = (tbl a).getD (decimal a)
    ∧ algorithmName specAlgorithmToString 1 = "RSAMD5"
    ∧ algorithmName specAlgorithmToString 2 = "DH"
    ∧ algorithmName specAlgorithmToString 5 = "RSASHA1"
    ∧ algorithmName specAlgorithmToString 8 = "RSASHA256"
    ∧ algorithmName specAlgorithmToString 242 = "242"
    ∧ algorithmName specAlgorithmToString 255 = "255" := by
  refine ⟨?_, by decide, by decide, by decide, by decide, by decide, by decide⟩
  unfold algorithmName
  cases tbl a <;> rfl

/-! ## Defaults -/

/-- The reformatting loop rewrites each entry on its own: an entry the pattern
matches is kept, any other is joined with port 53. -/
theorem reformatResolvers_eq_map (rs : List String) :
    reformatResolvers rs =
      rs.map (fun e => if resolverPattern.MatchString e then e else JoinHostPort e "53") := by
  induction rs with
  | nil => rfl
  | cons r rest ih =>
    simp only [reformatResolvers, List.map_cons, ih]
    cases resolverPattern.MatchString r <;> simp

/-- The reformatting loop keeps the number of entries. -/
theorem reformatResolvers_length (rs : List String) :
    (reformatResolvers rs).length = rs.length := by
  rw [reformatResolvers_eq_map, List.length_map]

theorem reformatResolvers_eq_nil (rs : List String) :
    reformatResolvers rs = [] ↔ rs = [] := by
  rw [← List.length_eq_zero, reformatResolvers_length, List.length_eq_zero]

/-- What `setDefaultValues` leaves when it returns no error. -/
theorem setDefaultValues_ok (sys : Option (List String)) (d : Dnskey)
    (h : (setDefaultValues sys d).2 = none) :
    (setDefaultValues sys d).1 =
      { Domains := if d.Domains = [] then ["."] else d.Domains
        Resolvers := reformatResolvers (if d.Resolvers = [] then sys.getD [] else d.Resolvers)
        Timeout := if d.Timeout = 0 then 2 else d.Timeout } := by
  obtain ⟨ds, rs, t⟩ := d
  unfold setDefaultValues at h ⊢
  cases ds <;> cases rs <;> cases sys <;> by_cases ht : t = 0 <;> simp_all

/-- The resolver file is not consulted when a resolver is configured. -/
theorem setDefaultValues_configured (sys : Option (List String)) (d : Dnskey)
    (h : d.Resolvers ≠ []) : setDefaultValues sys d = setDefaultValues none d := by
  obtain ⟨ds, rs, t⟩ := d
  unfold setDefaultValues
  cases ds <;> cases rs <;> simp_all

/-- When the resolver file cannot be read, the zero-value configuration is left
with the default domain but without resolvers and with its timeout still 0:
the error is returned before the timeout is defaulted. -/
theorem setDefaultValues_unreadable :
    setDefaultValues none { Domains := [], Resolvers := [], Timeout := 0 }
      = ({ Domains := ["."], Resolvers := [], Timeout := 0 },
         some "Could not read /etc/resolv.conf") := by
  decide

/-- C9: when `setDefaultValues` succeeds, the domain list is exactly ["."] if
it was empty and unchanged otherwise, and the timeout is 2 if it was 0 and
unchanged otherwise; for the zero-value configuration the result has
Domains = ["."] and Timeout = 2. -/
theorem setDefaultValues_fills_unset (sys : Option (List String)) (d : Dnskey)
    (h : (setDefaultValues sys d).2 = none) :
    (setDefaultValues sys d).1.Domains = (if d.Domains = [] then ["."] else d.Domains)
    ∧ (setDefaultValues sys d).1.Timeout = (if d.Timeout = 0 then 2 else d.Timeout)
    ∧ (d = { Domains := [], Resolvers := [], Timeout := 0 } →
        (setDefaultValues sys d).1.Domains = ["."] ∧ (setDefaultValues sys d).1.Timeout = 2) := by
  rw [setDefaultValues_ok sys d h]
  refine ⟨rfl, rfl, ?_⟩
  intro hd
  subst hd
  exact ⟨rfl, rfl⟩

/-- C9, at the zero-value configuration with a resolver file that lists one server. -/
theorem setDefaultValues_fills_unset_witness :
    (setDefaultValues (some ["192.0.2.1"]) { Domains := [], Resolvers := [], Timeout := 0 }).2 = none
    ∧ (setDefaultValues (some ["192.0.2.1"]) { Domains := [], Resolvers := [], Timeout := 0 }).1.Domains
        = ["."]
    ∧ (setDefaultValues (some ["192.0.2.1"]) { Domains := [], Resolvers := [], Timeout := 0 }).1.Timeout
        = 2 :=
  ⟨by decide,
   ((setDefaultValues_fills_unset (some ["192.0.2.1"])
      { Domains := [], Resolvers := [], Timeout := 0 } (by decide)).2.2 rfl).1,
   ((setDefaultValues_fills_unset (some ["192.0.2.1"])
      { Domains := [], Resolvers := [], Timeout := 0 } (by decide)).2.2 rfl).2⟩

/-- C6, as stated, fails: with an empty resolver list and a resolver file that
lists no server `setDefaultValues` succeeds and leaves the resolver list
empty; with a negative timeout it succeeds and leaves the timeout negative. -/
theorem setDefaultValues_post_counterexample :
    ((setDefaultValues (some []) { Domains := [], Resolvers := [], Timeout := 5 }).2 = none
      ∧ (setDefaultValues (some []) { Domains := [], Resolvers := [], Timeout := 5 }).1.Resolvers = [])
    ∧ ((setDefaultValues none { Domains := ["."], Resolvers := ["192.0.2.1"], Timeout := -1 }).2 = none
      ∧ ¬ 0 < (setDefaultValues none
            { Domains := ["."], Resolvers := ["192.0.2.1"], Timeout := -1 }).1.Timeout) := by
  decide

/-- C6, amended: when `setDefaultValues` returns no error the domain list is
not empty and the timeout is not zero, and is strictly positive when the input
timeout was not negative; the resolver list is not empty when the input
resolver list was not empty or the resolver file lists at least one server. -/
theorem setDefaultValues_post (sys : Option (List String)) (d : Dnskey)
    (h : (setDefaultValues sys d).2 = none) :
    (setDefaultValues sys d).1.Domains ≠ []
    ∧ (setDefaultValues sys d).1.Timeout ≠ 0
    ∧ (0 ≤ d.Timeout → 0 < (setDefaultValues sys d).1.Timeout)
    ∧ (d.Resolvers ≠ [] → (setDefaultValues sys d).1.Resolvers ≠ [])
    ∧ (∀ servers, sys = some servers → servers ≠ [] →
        (setDefaultValues sys d).1.Resolvers ≠ []) := by
  rw [setDefaultValues_ok sys d h]
  refine ⟨?_, ?_, ?_, ?_, ?_⟩
  · show (if d.Domains = [] then ["."] else d.Domains) ≠ []
    split
    · simp
    · assumption
  · show (if d.Timeout = 0 then (2 : Int) else d.Timeout) ≠ 0
    split
    · decide
    · assumption
  · intro h0
    show 0 < (if d.Timeout = 0 then (2 : Int) else d.Timeout)
    split
    · decide
    · omega
  · intro hr
    show reformatResolvers (if d.Resolvers = [] then sys.getD [] else d.Resolvers) ≠ []
    rw [if_neg hr, Ne, reformatResolvers_eq_nil]
    exact hr
  · intro servers hs hne
    subst hs
    show reformatResolvers (if d.Resolvers = [] then servers else d.Resolvers) ≠ []
    rw [Ne, reformatResolvers_eq_nil]
    split
    · exact hne
    · assumption

/-- C6 amended, at a configuration with no resolver and timeout 0, with a
resolver file that lists one server. -/
theorem setDefaultValues_post_witness :
    (setDefaultValues (some ["192.0.2.1"]) { Domains := [], Resolvers := [], Timeout := 0 }).2 = none
    ∧ (setDefaultValues (some ["192.0.2.1"]) { Domains := [], Resolvers := [], Timeout := 0 }).1.Domains
        ≠ []
    ∧ 0 < (setDefaultValues (some ["192.0.2.1"])
        { Domains := [], Resolvers := [], Timeout := 0 }).1.Timeout
    ∧ (setDefaultValues (some ["192.0.2.1"])
        { Domains := [], Resolvers := [], Timeout := 0 }).1.Resolvers ≠ [] :=
  have h := setDefaultValues_post (some ["192.0.2.1"])
    { Domains := [], Resolvers := [], Timeout := 0 } (by decide)
  ⟨by decide, h.1, h.2.2.1 (by decide), h.2.2.2.2 ["192.0.2.1"] rfl (by decide)⟩

/-- C1, evaluated on a resolver given by name: the first call of
`setDefaultValues` (whatever the resolver file holds) turns "localhost" into
"localhost:53", and a second call on that result succeeds and turns it into
"[localhost:53]:53", so the second call changes Resolvers. -/
theorem setDefaultValues_twice_hostname (sys : Option (List String)) :
    setDefaultValues sys { Domains := ["."], Resolvers := ["localhost"], Timeout := 2 }
      = ({ Domains := ["."], Resolvers := ["localhost:53"], Timeout := 2 }, none)
    ∧ setDefaultValues sys { Domains := ["."], Resolvers := ["localhost:53"], Timeout := 2 }
      = ({ Domains := ["."], Resolvers := ["[localhost:53]:53"], Timeout := 2 }, none)
    ∧ (setDefaultValues sys
        (setDefaultValues sys
          { Domains := ["."], Resolvers := ["localhost"], Timeout := 2 }).1).1.Resolvers
      ≠ (setDefaultValues sys
          { Domains := ["."], Resolvers := ["localhost"], Timeout := 2 }).1.Resolvers := by
  have h1 : setDefaultValues sys { Domains := ["."], Resolvers := ["localhost"], Timeout := 2 }
      = ({ Domains := ["."], Resolvers := ["localhost:53"], Timeout := 2 }, none) := by
    rw [setDefaultValues_configured sys _ (by decide)]
    decide
  have h2 : setDefaultValues sys { Domains := ["."], Resolvers := ["localhost:53"], Timeout := 2 }
      = ({ Domains := ["."], Resolvers := ["[localhost:53]:53"], Timeout := 2 }, none) := by
    rw [setDefaultValues_configured sys _ (by decide)]
    decide
  refine ⟨h1, h2, ?_⟩
  rw [h1, h2]
  decide

theorem JoinHostPort_length (host : String) :
    host.length < (JoinHostPort host "53").length := by
  unfold JoinHostPort
  split
  · simp only [String.length_append]
    have h1 : "[".length = 1 := by decide
    have h2 : "]:".length = 2 := by decide
    have h3 : "53".length = 2 := by decide
    omega
  · simp only [String.length_append]
    have h2 : ":".length = 1 := by decide
    have h3 : "53".length = 2 := by decide
    omega

/-- Joining with port 53 always changes the entry. -/
theorem JoinHostPort_ne (host : String) : JoinHostPort host "53" ≠ host := by
  intro h
  have := JoinHostPort_length host
  rw [h] at this
  exact absurd this (lt_irrefl _)

/-- C2, evaluated on entries that only begin or only end with the form.  The
loop rewrites each entry on its own, keeping number and order; an entry is
left unchanged exactly when the pattern of `setDefaultValues` matches it, and
is otherwise joined with port 53.  But the pattern is not anchored at both
ends: the entry "8.8.8.8:53abc" is not, as a whole, an IPv4 literal with a
port or a bracketed literal with a port, and neither is "ns[1]:53", yet the
pattern matches both and the loop leaves both unchanged instead of joining
them with port 53.  The three entries of the specification behave as it says. -/
theorem reformatResolvers_unanchored :
    (∀ rs : List String, reformatResolvers rs =
        rs.map (fun e => if resolverPattern.MatchString e then e else JoinHostPort e "53"))
    ∧ (∀ rs : List String, (reformatResolvers rs).length = rs.length)
    ∧ (∀ e : String, reformatResolvers [e] = [e] ↔ resolverPattern.MatchString e = true)
    ∧ wholeEntryPattern.MatchString "8.8.8.8:53abc" = false
    ∧ wholeEntryPattern.MatchString "ns[1]:53" = false
    ∧ resolverPattern.MatchString "8.8.8.8:53abc" = true
    ∧ resolverPattern.MatchString "ns[1]:53" = true
    ∧ reformatResolvers ["8.8.8.8:53abc", "ns[1]:53"] = ["8.8.8.8:53abc", "ns[1]:53"]
    ∧ JoinHostPort "8.8.8.8:53abc" "53" = "[8.8.8.8:53abc]:53"
    ∧ JoinHostPort "ns[1]:53" "53" = "[ns[1]:53]:53"
    ∧ reformatResolvers ["8.8.8.8", "8.8.8.8:53", "[2001:db8::1]:53"]
        = ["8.8.8.8:53", "8.8.8.8:53", "[2001:db8::1]:53"] := by
  refine ⟨reformatResolvers_eq_map, reformatResolvers_length, ?_,
    by decide, by decide, by decide, by decide, by decide, by decide, by decide, by decide⟩
  intro e
  rw [reformatResolvers_eq_map]
  simp only [List.map_cons, List.map_nil, List.cons.injEq, and_true]
  by_cases h : resolverPattern.MatchString e = true
  · simp [h]
  · simp [h, JoinHostPort_ne]


/-! ## The collection pass -/

/-- A list with a single element satisfying a test splits at that element in one way only. -/
theorem unique_split {α : Type} (P : α → Bool) (a : α) (q : List α)
    (hq : ∀ x ∈ q, P x = false) :
    ∀ (p : List α), (∀ x ∈ p, P x = false) → ∀ (p' : List α) (x : α) (post : List α),
      p ++ a :: q = p' ++ x :: post → P x = true → p' = p ∧ x = a ∧ post = q := by
  intro p
  induction p with
  | nil =>
    intro _ p' x post h hx
    cases p' with
    | nil =>
      simp only [List.nil_append, List.cons.injEq] at h
      exact ⟨rfl, h.1.symm, h.2.symm⟩
    | cons y r =>
      simp only [List.nil_append, List.cons_append, List.cons.injEq] at h
      have : x ∈ q := by rw [h.2]; simp
      rw [hq x this] at hx
      exact absurd hx (by decide)
  | cons b p0 ih =>
    intro hp p' x post h hx
    cases p' with
    | nil =>
      simp only [List.nil_append, List.cons_append, List.cons.injEq] at h
      have := hp b (by simp)
      rw [h.1, hx] at this
      exact absurd this (by decide)
    | cons y r =>
      simp only [List.cons_append, List.cons.injEq] at h
      obtain ⟨h1, h2, h3⟩ := ih (fun z hz => hp z (by simp [hz])) r x post h.2 hx
      exact ⟨by rw [h.1, h1], h2, h3⟩

theorem gatherAnswers_eq (tbl : Nat → Option String) (domain server : String) (rt rtt : Int)
    (rc : Int) (hrc : rc = RcodeSuccess) (answers : List RR) :
    gatherAnswers tbl domain server rtt answers
      = (Event.Exchange domain server rt (.ok { Rcode := rc, Answer := answers } rtt)).expected tbl := by
  simp only [Event.expected, hrc, if_true]
  induction answers with
  | nil => rfl
  | cons rr rest ih =>
    cases rr with
    | DNSKEY k =>
      simp [gatherAnswers, RR.Rrtype, keyMeasurement, ih]
    | other t h =>
      simp [gatherAnswers, RR.Rrtype, h, ih]

theorem gatherDomains_cons {σ : Type} (w : World σ) (d : Dnskey) (domain : String)
    (rest : List String) (s : σ) :
    gatherDomains w d (domain :: rest) s =
      match (getDnskey w (getResolver w s d).2 d domain (getResolver w s d).1).1 with
      | .error err =>
        ([.Exchange domain (getResolver w s d).1 (queryClient d).ReadTimeout (.error err),
          .AddError err], (getDnskey w (getResolver w s d).2 d domain (getResolver w s d).1).2)
      | .ok dnsMsg dnsQueryTime =>
        if dnsMsg.Rcode ≠ RcodeSuccess then
          ([.Exchange domain (getResolver w s d).1 (queryClient d).ReadTimeout (.ok dnsMsg dnsQueryTime),
            .AddError (rcodeError dnsMsg.Rcode (getResolver w s d).1 domain)],
           (getDnskey w (getResolver w s d).2 d domain (getResolver w s d).1).2)
        else
          (.Exchange domain (getResolver w s d).1 (queryClient d).ReadTimeout (.ok dnsMsg dnsQueryTime)
            :: (gatherAnswers w.AlgorithmToString domain (getResolver w s d).1 dnsQueryTime dnsMsg.Answer
              ++ (gatherDomains w d rest
                    (getDnskey w (getResolver w s d).2 d domain (getResolver w s d).1).2).1),
           (gatherDomains w d rest
              (getDnskey w (getResolver w s d).2 d domain (getResolver w s d).1).2).2) := by
  rw [gatherDomains]
  generalize getResolver w s d = p
  obtain ⟨server, s1⟩ := p
  simp only
  generalize getDnskey w s1 d domain server = q
  obtain ⟨res, s2⟩ := q
  cases res with
  | error err => rfl
  | ok m t =>
    simp only


theorem isAddFields_props (x : Event) (h : x.isAddFields = true) :
    x.isAddError = false ∧ x.failed = false ∧ x.queried = none
      ∧ ∀ tbl, x.expected tbl = [] := by
  cases x <;> simp_all [Event.isAddFields, Event.isAddError, Event.failed, Event.queried,
    Event.expected]

theorem gatherAnswers_isAddFields (tbl : Nat → Option String) (domain server : String)
    (rtt : Int) (answers : List RR) :
    ∀ x ∈ gatherAnswers tbl domain server rtt answers, x.isAddFields = true := by
  induction answers with
  | nil => intro x hx; simp [gatherAnswers] at hx
  | cons rr rest ih =>
    cases rr with
    | DNSKEY k =>
      intro x hx
      simp only [gatherAnswers, RR.Rrtype, ne_eq, not_true_eq_false, dite_false,
        List.mem_cons] at hx
      rcases hx with rfl | hx
      · rfl
      · exact ih x hx
    | other t h =>
      intro x hx
      simp only [gatherAnswers, RR.Rrtype, ne_eq, h, not_false_eq_true, dite_true] at hx
      exact ih x hx

theorem gatherDomains_shape {σ : Type} (w : World σ) (d : Dnskey) :
    ∀ (ds : List String) (s : σ),
      ((∀ x ∈ (gatherDomains w d ds s).1, x.isAddError = false ∧ x.failed = false)
        ∧ (gatherDomains w d ds s).1.filterMap Event.queried = ds)
      ∨ (∃ pre ev e, (gatherDomains w d ds s).1 = pre ++ [ev, Event.AddError e]
          ∧ (∀ x ∈ pre, x.isAddError = false ∧ x.failed = false)
          ∧ ev.failed = true
          ∧ (pre ++ [ev]).filterMap Event.queried <+: ds) := by
  intro ds
  induction ds with
  | nil => intro s; left; simp [gatherDomains]
  | cons domain rest ih =>
    intro s
    rw [gatherDomains_cons]
    cases hres : (getDnskey w (getResolver w s d).2 d domain (getResolver w s d).1).1 with
    | error err =>
      right
      refine ⟨[], _, err, rfl, by simp, rfl, ?_⟩
      simp [Event.queried]
    | ok m t =>
      dsimp only
      by_cases hrc : m.Rcode ≠ RcodeSuccess
      · rw [if_pos hrc]
        right
        refine ⟨[], _, _, rfl, by simp, ?_, ?_⟩
        · simp [Event.failed, hrc]
        · simp [Event.queried]
      · rw [if_neg hrc]
        have hev : ∀ rt, (Event.Exchange domain (getResolver w s d).1 rt (.ok m t)).isAddError = false
            ∧ (Event.Exchange domain (getResolver w s d).1 rt (.ok m t)).failed = false := by
          intro rt
          simp [Event.isAddError, Event.failed, hrc]
        have hga := gatherAnswers_isAddFields w.AlgorithmToString domain (getResolver w s d).1 t m.Answer
        have hgaq : (gatherAnswers w.AlgorithmToString domain (getResolver w s d).1 t
            m.Answer).filterMap Event.queried = [] := by
          rw [List.filterMap_eq_nil_iff]
          intro x hx
          exact (isAddFields_props x (hga x hx)).2.2.1
        rcases ih (getDnskey w (getResolver w s d).2 d domain (getResolver w s d).1).2 with
          ⟨hclean, hq⟩ | ⟨pre, ev, e, htr, hpre, hfail, hpfx⟩
        · left
          constructor
          · intro x hx
            simp only [List.mem_cons, List.mem_append] at hx
            rcases hx with rfl | hx | hx
            · exact hev _
            · exact ⟨(isAddFields_props x (hga x hx)).1, (isAddFields_props x (hga x hx)).2.1⟩
            · exact hclean x hx
          · simp [List.filterMap_cons, List.filterMap_append, Event.queried, hgaq, hq]
        · right
          refine ⟨Event.Exchange domain (getResolver w s d).1 (queryClient d).ReadTimeout (.ok m t)
            :: (gatherAnswers w.AlgorithmToString domain (getResolver w s d).1 t m.Answer ++ pre),
            ev, e, ?_, ?_, hfail, ?_⟩
          · simp [htr]
          · intro x hx
            simp only [List.mem_cons, List.mem_append] at hx
            rcases hx with rfl | hx | hx
            · exact hev _
            · exact ⟨(isAddFields_props x (hga x hx)).1, (isAddFields_props x (hga x hx)).2.1⟩
            · exact hpre x hx
          · simp only [List.cons_append, List.append_assoc, List.filterMap_cons, Event.queried,
              List.filterMap_append, hgaq, List.nil_append]
            rw [List.cons_prefix_cons]
            refine ⟨rfl, ?_⟩
            simpa [List.filterMap_append] using hpfx


theorem failed_not_isAddError (x : Event) (h : x.failed = true) :
    x.isAddError = false ∧ x.isAddFields = false := by
  cases x <;> simp_all [Event.failed, Event.isAddError, Event.isAddFields]

theorem gatherDomains_measurements {σ : Type} (w : World σ) (d : Dnskey) :
    ∀ (ds : List String) (s : σ),
      (gatherDomains w d ds s).1.filter Event.isAddFields
        = (gatherDomains w d ds s).1.flatMap (Event.expected w.AlgorithmToString) := by
  intro ds
  induction ds with
  | nil => intro s; simp [gatherDomains]
  | cons domain rest ih =>
    intro s
    rw [gatherDomains_cons]
    cases hres : (getDnskey w (getResolver w s d).2 d domain (getResolver w s d).1).1 with
    | error err =>
      simp [Event.isAddFields, Event.expected]
    | ok m t =>
      dsimp only
      by_cases hrc : m.Rcode ≠ RcodeSuccess
      · rw [if_pos hrc]
        have hrc' : ¬ m.Rcode = RcodeSuccess := hrc
        simp [Event.isAddFields, Event.expected, hrc']
      · rw [if_neg hrc]
        have hrc' : m.Rcode = RcodeSuccess := not_not.mp hrc
        have hga := gatherAnswers_isAddFields w.AlgorithmToString domain (getResolver w s d).1 t m.Answer
        have h1 : (gatherAnswers w.AlgorithmToString domain (getResolver w s d).1 t
            m.Answer).filter Event.isAddFields
            = gatherAnswers w.AlgorithmToString domain (getResolver w s d).1 t m.Answer :=
          List.filter_eq_self.mpr hga
        have h2 : (gatherAnswers w.AlgorithmToString domain (getResolver w s d).1 t
            m.Answer).flatMap (Event.expected w.AlgorithmToString) = [] := by
          rw [List.flatMap_eq_nil_iff]
          intro x hx
          exact (isAddFields_props x (hga x hx)).2.2.2 _
        have h3 := gatherAnswers_eq w.AlgorithmToString domain (getResolver w s d).1
          (queryClient d).ReadTimeout t m.Rcode hrc' m.Answer
        simp only [List.filter_cons, Event.isAddFields, List.filter_append, h1,
          List.flatMap_cons, List.flatMap_append, h2, List.nil_append, ih]
        rw [h3]
        rfl

theorem gatherDomains_ReadTimeout {σ : Type} (w : World σ) (d : Dnskey) :
    ∀ (ds : List String) (s : σ) (domain server : String) (rt : Int) (res : ExchangeResult),
      Event.Exchange domain server rt res ∈ (gatherDomains w d ds s).1 →
        rt = wrap64 (d.Timeout * Second) := by
  intro ds
  induction ds with
  | nil => intro s domain server rt res h; simp [gatherDomains] at h
  | cons dom rest ih =>
    intro s domain server rt res h
    rw [gatherDomains_cons] at h
    cases hres : (getDnskey w (getResolver w s d).2 d dom (getResolver w s d).1).1 with
    | error err =>
      rw [hres] at h
      simp [queryClient] at h
      exact h.2.2.1
    | ok m t =>
      rw [hres] at h
      dsimp only at h
      by_cases hrc : m.Rcode ≠ RcodeSuccess
      · rw [if_pos hrc] at h
        simp [queryClient] at h
        exact h.2.2.1
      · rw [if_neg hrc] at h
        simp only [List.mem_cons, List.mem_append] at h
        rcases h with h | h | h
        · simp [queryClient] at h
          exact h.2.2.1
        · have := gatherAnswers_isAddFields _ _ _ _ _ _ h
          simp [Event.isAddFields] at this
        · exact ih _ _ _ _ _ h

theorem Gather_not_loaded {σ : Type} (w : World σ) (s : σ) (d : Dnskey) (err : String)
    (h : (setDefaultValues (w.ClientConfigFromFile s) d).2 = some err) :
    (Gather w s d).trace = [Event.AddError err]
      ∧ (Gather w s d).config = (setDefaultValues (w.ClientConfigFromFile s) d).1 := by
  unfold Gather
  generalize setDefaultValues (w.ClientConfigFromFile s) d = p at h
  obtain ⟨d1, e⟩ := p
  simp only at h
  subst h
  exact ⟨rfl, rfl⟩

theorem Gather_loaded {σ : Type} (w : World σ) (s : σ) (d : Dnskey)
    (h : (setDefaultValues (w.ClientConfigFromFile s) d).2 = none) :
    (Gather w s d).trace
        = (gatherDomains w (setDefaultValues (w.ClientConfigFromFile s) d).1
            (setDefaultValues (w.ClientConfigFromFile s) d).1.Domains s).1
      ∧ (Gather w s d).config = (setDefaultValues (w.ClientConfigFromFile s) d).1 := by
  unfold Gather
  generalize setDefaultValues (w.ClientConfigFromFile s) d = p at h
  obtain ⟨d1, e⟩ := p
  simp only at h
  subst h
  exact ⟨rfl, rfl⟩


theorem shape_consequences (tr : List Event) (ds : List String)
    (h : ((∀ x ∈ tr, x.isAddError = false ∧ x.failed = false)
          ∧ tr.filterMap Event.queried = ds)
        ∨ (∃ pre ev e, tr = pre ++ [ev, Event.AddError e]
            ∧ (∀ x ∈ pre, x.isAddError = false ∧ x.failed = false)
            ∧ ev.failed = true
            ∧ (pre ++ [ev]).filterMap Event.queried <+: ds)) :
    (tr.filter Event.isAddError).length ≤ 1
    ∧ ((tr.filter Event.isAddError).length = 1 ↔ ∃ ev ∈ tr, ev.failed = true)
    ∧ (∀ pre ev post, tr = pre ++ ev :: post → ev.failed = true →
        ∃ e, post = [Event.AddError e])
    ∧ (∀ pre e post, tr = pre ++ Event.AddError e :: post → post = [])
    ∧ tr.filterMap Event.queried <+: ds := by
  rcases h with ⟨hclean, hq⟩ | ⟨pre, ev, e, htr, hpre, hfail, hpfx⟩
  · have hnil : tr.filter Event.isAddError = [] := by
      rw [List.filter_eq_nil_iff]
      intro x hx
      simp [(hclean x hx).1]
    refine ⟨by simp [hnil], ?_, ?_, ?_, ?_⟩
    · rw [hnil]
      constructor
      · intro h0; simp at h0
      · rintro ⟨x, hx, hf⟩
        rw [(hclean x hx).2] at hf
        exact absurd hf (by decide)
    · intro p x post hsplit hf
      have hx : x ∈ tr := by rw [hsplit]; simp
      rw [(hclean x hx).2] at hf
      exact absurd hf (by decide)
    · intro p e post hsplit
      have hx : Event.AddError e ∈ tr := by rw [hsplit]; simp
      have := (hclean _ hx).1
      simp [Event.isAddError] at this
    · rw [hq]
  · have hone : tr.filter Event.isAddError = [Event.AddError e] := by
      have hp : pre.filter Event.isAddError = [] := by
        rw [List.filter_eq_nil_iff]
        intro x hx
        simp [(hpre x hx).1]
      have hev := (failed_not_isAddError ev hfail).1
      rw [htr, List.filter_append, hp, List.filter_cons, hev]
      simp [Event.isAddError]
    refine ⟨by simp [hone], ?_, ?_, ?_, ?_⟩
    · rw [hone]
      constructor
      · intro _
        exact ⟨ev, by rw [htr]; simp, hfail⟩
      · intro _; rfl
    · intro p x post hsplit hf
      rw [htr] at hsplit
      have := unique_split Event.failed ev [Event.AddError e]
        (by intro z hz; simp at hz; subst hz; rfl) pre (fun z hz => (hpre z hz).2)
        p x post hsplit hf
      exact ⟨e, this.2.2⟩
    · intro p e' post hsplit
      rw [htr] at hsplit
      have hsplit' : (pre ++ [ev]) ++ Event.AddError e :: [] = p ++ Event.AddError e' :: post := by
        rw [← hsplit]; simp
      have := unique_split Event.isAddError (Event.AddError e) [] (by simp) (pre ++ [ev])
        (by
          intro z hz
          simp only [List.mem_append, List.mem_singleton] at hz
          rcases hz with hz | rfl
          · exact (hpre z hz).1
          · exact (failed_not_isAddError _ hfail).1)
        p (Event.AddError e') post hsplit' rfl
      exact this.2.2
    · have : tr.filterMap Event.queried = (pre ++ [ev]).filterMap Event.queried := by
        rw [htr]
        have : pre ++ [ev, Event.AddError e] = (pre ++ [ev]) ++ [Event.AddError e] := by simp
        rw [this, List.filterMap_append]
        simp [Event.queried]
      rw [this]
      exact hpfx

/-- C3: a pass of `Gather` is fail-fast and reports a failure exactly once.
For every outside world and configuration: at most one error is reported;
exactly one is reported precisely when the defaults cannot be loaded or some
exchange fails (returns an error, or a response whose code is not success);
when the defaults cannot be loaded the pass consists of that report alone; a
failing exchange is followed by the report and nothing else, so nothing is
emitted for the failing domain; nothing at all follows a report, so no later
domain is queried and no further measurement is emitted; the domains queried
are an initial segment of the configured list, in order; and the measurements
emitted are exactly those of the exchanges that succeeded, so those emitted
before a failure remain. -/
theorem Gather_fail_fast {σ : Type} (w : World σ) (s : σ) (d : Dnskey) :
    ((Gather w s d).trace.filter Event.isAddError).length ≤ 1
    ∧ (((Gather w s d).trace.filter Event.isAddError).length = 1 ↔
        ((setDefaultValues (w.ClientConfigFromFile s) d).2 ≠ none
          ∨ ∃ ev ∈ (Gather w s d).trace, ev.failed = true))
    ∧ (∀ err, (setDefaultValues (w.ClientConfigFromFile s) d).2 = some err →
        (Gather w s d).trace = [Event.AddError err])
    ∧ (∀ pre ev post, (Gather w s d).trace = pre ++ ev :: post → ev.failed = true →
        ∃ e, post = [Event.AddError e])
    ∧ (∀ pre e post, (Gather w s d).trace = pre ++ Event.AddError e :: post → post = [])
    ∧ (Gather w s d).trace.filterMap Event.queried <+: (Gather w s d).config.Domains
    ∧ (Gather w s d).trace.filter Event.isAddFields
        = (Gather w s d).trace.flatMap (Event.expected w.AlgorithmToString) := by
  cases hdef : (setDefaultValues (w.ClientConfigFromFile s) d).2 with
  | some err =>
    obtain ⟨htr, _⟩ := Gather_not_loaded w s d err hdef
    rw [htr]
    refine ⟨by simp [Event.isAddError], ?_, ?_, ?_, ?_, ?_, ?_⟩
    · simp [Event.isAddError]
    · intro err' h; simp at h; rw [h]
    · intro pre ev post hsplit hf
      have hx : ev ∈ [Event.AddError err] := by rw [hsplit]; simp
      simp at hx
      subst hx
      simp [Event.failed] at hf
    · intro pre e post hsplit
      cases pre with
      | nil => simp at hsplit; exact hsplit.2
      | cons y r => simp at hsplit
    · simp [Event.queried]
    · simp [Event.isAddFields, Event.expected]
  | none =>
    obtain ⟨htr, hcfg⟩ := Gather_loaded w s d hdef
    rw [htr, hcfg]
    obtain ⟨h1, h2, h3, h4, h5⟩ := shape_consequences _ _
      (gatherDomains_shape w (setDefaultValues (w.ClientConfigFromFile s) d).1
        (setDefaultValues (w.ClientConfigFromFile s) d).1.Domains s)
    refine ⟨h1, ?_, ?_, h3, h4, h5, gatherDomains_measurements w _ _ s⟩
    · rw [h2]; simp
    · intro err h; simp at h

/-- C3, at a pass over three domains of which the second is answered with
response code 2: the first domain's measurement is emitted, the failure is
reported once, and the third domain is not queried. -/
theorem Gather_fail_fast_witness :
    (Gather scenario 0
        { Domains := [".", "fail.example", "later.example"], Resolvers := ["192.0.2.1"],
          Timeout := 2 }).trace
      = [Event.Exchange "." "192.0.2.1:53" 2000000000 (.ok rootAnswer 1500000),
         Event.AddFields "dnskey" [("query_time_ms", .Duration 1500000)]
           [("domain", "."), ("server", "192.0.2.1:53"), ("keytag", "12345"),
            ("algorithm", "RSASHA256"), ("key_type", "KSK")],
         Event.Exchange "fail.example" "192.0.2.1:53" 2000000000
           (.ok { Rcode := 2, Answer := [] } 900000),
         Event.AddError "Query failed! Rcode 2  Querying: 192.0.2.1:53 for fail.example"]
    ∧ ((Gather scenario 0
        { Domains := [".", "fail.example", "later.example"], Resolvers := ["192.0.2.1"],
          Timeout := 2 }).trace.filter Event.isAddError).length ≤ 1 :=
  ⟨by decide,
   (Gather_fail_fast scenario 0
      { Domains := [".", "fail.example", "later.example"], Resolvers := ["192.0.2.1"],
        Timeout := 2 }).1⟩


theorem getResolver_mem {σ : Type} (w : World σ) (s : σ) (d : Dnskey) :
    (getResolver w s d).1 ∈ d.Resolvers ∨ d.Resolvers = [] := by
  unfold getResolver
  by_cases h : d.Resolvers.length = 0
  · right; exact List.length_eq_zero.mp h
  · left
    rw [if_neg h]
    have hlt : (w.Intn s d.Resolvers.length).1 % d.Resolvers.length < d.Resolvers.length :=
      Nat.mod_lt _ (Nat.pos_of_ne_zero h)
    show d.Resolvers.getD ((w.Intn s d.Resolvers.length).1 % d.Resolvers.length) "" ∈ d.Resolvers
    rw [List.getD_eq_getElem _ _ hlt]
    exact List.getElem_mem _

theorem gatherDomains_server {σ : Type} (w : World σ) (d : Dnskey) :
    ∀ (ds : List String) (s : σ) (domain server : String) (rt : Int) (res : ExchangeResult),
      Event.Exchange domain server rt res ∈ (gatherDomains w d ds s).1 →
        server ∈ d.Resolvers ∨ d.Resolvers = [] := by
  intro ds
  induction ds with
  | nil => intro s domain server rt res h; simp [gatherDomains] at h
  | cons dom rest ih =>
    intro s domain server rt res h
    rw [gatherDomains_cons] at h
    cases hres : (getDnskey w (getResolver w s d).2 d dom (getResolver w s d).1).1 with
    | error err =>
      rw [hres] at h
      simp at h
      rw [h.2.1]
      exact getResolver_mem w s d
    | ok m t =>
      rw [hres] at h
      dsimp only at h
      by_cases hrc : m.Rcode ≠ RcodeSuccess
      · rw [if_pos hrc] at h
        simp at h
        rw [h.2.1]
        exact getResolver_mem w s d
      · rw [if_neg hrc] at h
        simp only [List.mem_cons, List.mem_append] at h
        rcases h with h | h | h
        · simp at h
          rw [h.2.1]
          exact getResolver_mem w s d
        · have := gatherAnswers_isAddFields _ _ _ _ _ _ h
          simp [Event.isAddFields] at this
        · exact ih _ _ _ _ _ h

theorem wrap64_of_range (x : Int) (h1 : -2 ^ 63 ≤ x) (h2 : x < 2 ^ 63) : wrap64 x = x := by
  unfold wrap64
  omega


/-- C4: on a pass where the defaults load and no exchange fails, `Gather`
reports no error, queries the configured domains in order, each at a
configured resolver, and emits exactly one measurement per answer record that
is a key record and none for any other record, in domain order and then answer
order; each is named "dnskey", has the one field query_time_ms and the tags
domain, server, keytag, algorithm and key_type.  For the root domain answered
with one key record of algorithm 8, flags 257 and tag 12345 (and one record of
another type) exactly one measurement is emitted, with algorithm "RSASHA256",
key_type "KSK" and keytag "12345". -/
theorem Gather_emits_keys {σ : Type} (w : World σ) (s : σ) (d : Dnskey)
    (hd : (setDefaultValues (w.ClientConfigFromFile s) d).2 = none)
    (hx : ∀ ev ∈ (Gather w s d).trace, ev.failed = false) :
    (∀ ev ∈ (Gather w s d).trace, ev.isAddError = false)
    ∧ (Gather w s d).trace.filterMap Event.queried = (Gather w s d).config.Domains
    ∧ (∀ domain server rt res, Event.Exchange domain server rt res ∈ (Gather w s d).trace →
        server ∈ (Gather w s d).config.Resolvers ∨ (Gather w s d).config.Resolvers = [])
    ∧ (Gather w s d).trace.filter Event.isAddFields
        = (Gather w s d).trace.flatMap (Event.expected w.AlgorithmToString)
    ∧ (Gather scenario 0 { Domains := ["."], Resolvers := ["192.0.2.1"], Timeout := 0 }).trace.filter
          Event.isAddFields
        = [Event.AddFields "dnskey" [("query_time_ms", .Duration 1500000)]
            [("domain", "."), ("server", "192.0.2.1:53"), ("keytag", "12345"),
             ("algorithm", "RSASHA256"), ("key_type", "KSK")]] := by
  obtain ⟨htr, hcfg⟩ := Gather_loaded w s d hd
  rw [htr] at hx
  rw [htr, hcfg]
  refine ⟨?_, ?_, ?_, gatherDomains_measurements w _ _ s, by decide⟩
  · rcases gatherDomains_shape w (setDefaultValues (w.ClientConfigFromFile s) d).1
      (setDefaultValues (w.ClientConfigFromFile s) d).1.Domains s with
      ⟨hclean, _⟩ | ⟨pre, ev, e, hsplit, _, hfail, _⟩
    · intro ev hev; exact (hclean ev hev).1
    · have := hx ev (by rw [hsplit]; simp)
      rw [hfail] at this
      exact absurd this (by decide)
  · rcases gatherDomains_shape w (setDefaultValues (w.ClientConfigFromFile s) d).1
      (setDefaultValues (w.ClientConfigFromFile s) d).1.Domains s with
      ⟨_, hq⟩ | ⟨pre, ev, e, hsplit, _, hfail, _⟩
    · exact hq
    · have := hx ev (by rw [hsplit]; simp)
      rw [hfail] at this
      exact absurd this (by decide)
  · intro domain server rt res h
    exact gatherDomains_server w _ _ s domain server rt res h

/-- C4, at the end-to-end scenario: the root domain, one configured resolver. -/
theorem Gather_emits_keys_witness :
    (setDefaultValues (scenario.ClientConfigFromFile 0)
        { Domains := ["."], Resolvers := ["192.0.2.1"], Timeout := 0 }).2 = none
    ∧ (∀ ev ∈ (Gather scenario 0
          { Domains := ["."], Resolvers := ["192.0.2.1"], Timeout := 0 }).trace, ev.failed = false)
    ∧ (Gather scenario 0
          { Domains := ["."], Resolvers := ["192.0.2.1"], Timeout := 0 }).trace.filterMap Event.queried
        = ["."]
    ∧ (Gather scenario 0
          { Domains := ["."], Resolvers := ["192.0.2.1"], Timeout := 0 }).trace.filter Event.isAddFields
        = (Gather scenario 0
            { Domains := ["."], Resolvers := ["192.0.2.1"], Timeout := 0 }).trace.flatMap
            (Event.expected specAlgorithmToString) :=
  have h := Gather_emits_keys scenario 0
    { Domains := ["."], Resolvers := ["192.0.2.1"], Timeout := 0 } (by decide) (by decide)
  ⟨by decide, by decide, h.2.1, h.2.2.2.1⟩

/-- C5, evaluated on a successful query of the root domain that took 1.5 ms:
the field query_time_ms of the emitted measurement holds the duration itself,
the integer 1500000 (nanoseconds), not the number of milliseconds 1.5 as a
float; a float64 read of the field, as in the tests, fails and gives zero. -/
theorem Gather_query_time_field :
    (Gather scenario 0 { Domains := ["."], Resolvers := ["192.0.2.1"], Timeout := 2 }).trace
      = [Event.Exchange "." "192.0.2.1:53" 2000000000 (.ok rootAnswer 1500000),
         Event.AddFields "dnskey" [("query_time_ms", .Duration 1500000)]
           [("domain", "."), ("server", "192.0.2.1:53"), ("keytag", "12345"),
            ("algorithm", "RSASHA256"), ("key_type", "KSK")]]
    ∧ (FieldValue.Duration 1500000).asFloat64 = (0, false) := by
  decide

/-- C10, as stated, fails: with Timeout = 0 the query of a pass is made with a
read timeout of 2 seconds (2000000000 ns), not 0; and with Timeout = 10^10 the
product with `time.Second` wraps around, so the read timeout is
-8446744073709551616 ns, not 10^10 seconds. -/
theorem Gather_read_timeout_counterexample :
    (Gather scenario 0 { Domains := ["."], Resolvers := ["192.0.2.1"], Timeout := 0 }).trace.head?
      = some (Event.Exchange "." "192.0.2.1:53" 2000000000 (.ok rootAnswer 1500000))
    ∧ (2000000000 : Int) ≠ 0 * Second
    ∧ (Gather scenario 0
        { Domains := ["."], Resolvers := ["192.0.2.1"], Timeout := 10000000000 }).trace.head?
      = some (Event.Exchange "." "192.0.2.1:53" (-8446744073709551616) (.ok rootAnswer 1500000))
    ∧ (-8446744073709551616 : Int) ≠ 10000000000 * Second := by
  decide

/-- C10, amended: a configured Timeout of 0 is replaced by the default of 2
seconds before any query.  For every configuration whose timeout in
nanoseconds fits the 64-bit duration type, every query issued by a pass is
made with a read timeout of 2 seconds when Timeout = 0, and of Timeout seconds
otherwise. -/
theorem Gather_read_timeout {σ : Type} (w : World σ) (s : σ) (d : Dnskey)
    (domain server : String) (rt : Int) (res : ExchangeResult)
    (hq : Event.Exchange domain server rt res ∈ (Gather w s d).trace)
    (hlo : -2 ^ 63 ≤ d.Timeout * Second) (hhi : d.Timeout * Second < 2 ^ 63) :
    rt = (if d.Timeout = 0 then 2 else d.Timeout) * Second := by
  cases hdef : (setDefaultValues (w.ClientConfigFromFile s) d).2 with
  | some err =>
    rw [(Gather_not_loaded w s d err hdef).1] at hq
    simp at hq
  | none =>
    rw [(Gather_loaded w s d hdef).1] at hq
    have h := gatherDomains_ReadTimeout w _ _ s domain server rt res hq
    rw [setDefaultValues_ok _ d hdef] at h
    rw [h]
    apply wrap64_of_range
    · show -2 ^ 63 ≤ (if d.Timeout = 0 then (2 : Int) else d.Timeout) * Second
      split
      · decide
      · exact hlo
    · show (if d.Timeout = 0 then (2 : Int) else d.Timeout) * Second < 2 ^ 63
      split
      · decide
      · exact hhi

/-- C10 amended, at the root domain with Timeout = 0. -/
theorem Gather_read_timeout_witness :
    Event.Exchange "." "192.0.2.1:53" 2000000000 (.ok rootAnswer 1500000)
        ∈ (Gather scenario 0 { Domains := ["."], Resolvers := ["192.0.2.1"], Timeout := 0 }).trace
    ∧ (2000000000 : Int) = (if (0 : Int) = 0 then 2 else 0) * Second :=
  ⟨by decide,
   Gather_read_timeout scenario 0 { Domains := ["."], Resolvers := ["192.0.2.1"], Timeout := 0 }
     "." "192.0.2.1:53" 2000000000 (.ok rootAnswer 1500000) (by decide) (by decide) (by decide)⟩

end dnskey
